import Mathlib

/-!
Shallow embedding of the quackfs storage manager (Go, src/unnamed/part_000,
package storage) and proofs about the spec claims.

Modelling conventions:
- The four relational tables (files, snapshot_layers, versions, chunks) are
  lists of rows kept in primary-key order: keys are SERIAL, so insertion
  appends a row with a fresh increasing id at the tail.  Consequently a SQL
  `ORDER BY id ASC` is the list order, a `LIMIT 1` after it is `head?`, and
  `ORDER BY <key> ASC` with ties left unspecified by SQL is modelled as a
  stable sort over insertion order.
- Byte payloads are lists of naturals; offsets and sizes are naturals
  (uint64 overflow is unreachable here because writes beyond the current
  virtual size are rejected).
- Range columns are stored in Go as the text form of a half-open interval
  and round-tripped losslessly through parse/format; the model keeps them
  as pairs of naturals directly.
- Go DB/O-store I/O errors are injected through explicit fault parameters
  where a claim is about failure behaviour (ReadFile load faults, the
  InsertFile layer-insert fault, the Checkpoint per-statement fault);
  passing no fault gives the fault-free execution.
- Errors are an inductive type mirroring the distinct Go error returns.
-/

namespace QuackFS

/-- Row of the files table: files(id PK, name UNIQUE). -/
structure FileRow where
  id : Nat
  name : String
deriving DecidableEq, Repr

/-- Row of the snapshot_layers table.  A NULL version_id is modelled as 0
(version ids start at 1). -/
structure LayerRow where
  id : Nat
  fileID : Nat
  active : Bool
  versionID : Nat
deriving DecidableEq, Repr

/-- Row of the versions table: versions(id PK, tag UNIQUE). -/
structure VersionRow where
  id : Nat
  tag : String
deriving DecidableEq, Repr

/-- Row of the chunks table, mirroring the Go Chunk struct loaded from it:
snapshot_layer_id, offset_value, data, layer_range, file_range. -/
structure Chunk where
  layerID : Nat
  offset : Nat
  data : List Nat
  layerRange : Nat × Nat
  fileRange : Nat × Nat
deriving DecidableEq, Repr

/-- The metadata store state: the four tables plus the next SERIAL key of
each id-generating table. -/
structure DB where
  files : List FileRow
  layers : List LayerRow
  versions : List VersionRow
  chunks : List Chunk
  nextFileID : Nat
  nextLayerID : Nat
  nextVersionID : Nat
deriving DecidableEq, Repr

/-- Fresh database: empty tables, SERIAL keys start at 1. -/
def emptyDB : DB :=
  { files := [], layers := [], versions := [], chunks := [],
    nextFileID := 1, nextLayerID := 1, nextVersionID := 1 }

/-- Distinct error returns of the Go storage manager.  writeBeyondFileSize
is the OutOfRange kind of the spec; truncateToSmaller is its Unsupported
kind; storeFailure stands for a propagated DB I/O error. -/
inductive Err where
  | fileNotFound
  | activeLayerQueryFailed
  | writeBeyondFileSize
  | versionTagNotFound
  | loadLayersFailed
  | loadChunksFailed
  | duplicateVersionTag
  | fileAlreadyExists
  | truncateToSmaller
  | storeFailure
deriving DecidableEq, Repr

/-- GetFileIDByName (part_000 lines 520-547): SELECT id FROM files WHERE
name = $1; sql.ErrNoRows is surfaced as id 0 with no error. -/
def GetFileIDByName (db : DB) (name : String) : Nat :=
  match db.files.find? (fun f => f.name == name) with
  | some f => f.id
  | none => 0

/-- LoadLayersByFileID (lines 745-793): SELECT ... FROM snapshot_layers
WHERE file_id = $1 ORDER BY id ASC.  The layers list is in id order, so
the filter realizes the ORDER BY. -/
def LoadLayersByFileID (db : DB) (fileID : Nat) : List LayerRow :=
  db.layers.filter (fun l => l.fileID == fileID)

/-- Active-layer lookup used by WriteFile and Checkpoint: SELECT id FROM
snapshot_layers WHERE file_id = $1 AND active = 1 ORDER BY id ASC LIMIT 1;
none models sql.ErrNoRows. -/
def activeLayerID (db : DB) (fileID : Nat) : Option Nat :=
  ((db.layers.filter (fun l => l.fileID == fileID && l.active)).head?).map (fun l => l.id)

/-- GetLayerBase (lines 410-431): the minimum lower(file_range) among the
chunks of the layer, 0 when the layer has no chunks. -/
def GetLayerBase (db : DB) (layerID : Nat) : Nat :=
  match ((db.chunks.filter (fun c => c.layerID == layerID)).map (fun c => c.fileRange.1)) with
  | [] => 0
  | x :: xs => xs.foldl Nat.min x

/-- calcFileSize (lines 674-743): collect the file_range of every chunk
belonging to a layer of the file and return the maximum end point
(0 when there is none). -/
def calcFileSize (db : DB) (fileID : Nat) : Nat :=
  let layerIDs := (db.layers.filter (fun l => l.fileID == fileID)).map (fun l => l.id)
  let ranges := (db.chunks.filter (fun c => layerIDs.contains c.layerID)).map (fun c => c.fileRange)
  ranges.foldl (fun acc r => Nat.max acc r.2) 0

/-- calculateRanges (lines 203-233): layer-relative range from the layer
base as it is before the insertion, clamped at 0, and the absolute file
range. -/
def calculateRanges (db : DB) (layerID : Nat) (offset : Nat) (dataSize : Nat) :
    (Nat × Nat) × (Nat × Nat) :=
  let baseOffset := GetLayerBase db layerID
  let layerStart := if offset ≥ baseOffset then offset - baseOffset else 0
  ((layerStart, layerStart + dataSize), (offset, offset + dataSize))

/-- WriteFile (lines 146-200): resolve the file, find the active layer,
reject offsets beyond the current virtual size, then insert one chunk row
with the computed ranges.  The insert is the only mutation, so every error
path leaves the store unchanged. -/
def WriteFile (db : DB) (filename : String) (data : List Nat) (offset : Nat) :
    DB × Except Err Unit :=
  if GetFileIDByName db filename = 0 then (db, .error .fileNotFound)
  else
    match activeLayerID db (GetFileIDByName db filename) with
    | none => (db, .error .activeLayerQueryFailed)
    | some layerID =>
      if offset > calcFileSize db (GetFileIDByName db filename) then
        (db, .error .writeBeyondFileSize)
      else
        ({ db with chunks := db.chunks ++
            [{ layerID := layerID, offset := offset, data := data,
               layerRange := (calculateRanges db layerID offset data.length).1,
               fileRange := (calculateRanges db layerID offset data.length).2 }] }, .ok ())

/-- insertActiveLayer (lines 450-482): INSERT INTO snapshot_layers
(file_id, active) VALUES ($1, 1) RETURNING id. -/
def insertActiveLayer (db : DB) (fileID : Nat) : DB :=
  { db with
    layers := db.layers ++ [{ id := db.nextLayerID, fileID := fileID, active := true, versionID := 0 }],
    nextLayerID := db.nextLayerID + 1 }

/-- InsertFile (lines 484-506): two separate autocommit statements, no
transaction.  The file row is inserted first (failing on the UNIQUE name
constraint); then the initial active layer is inserted.  layerInsertFault
injects a DB failure into the second statement: the file row stays. -/
def InsertFile (db : DB) (layerInsertFault : Bool) (name : String) :
    DB × Except Err Nat :=
  if db.files.any (fun f => f.name == name) then (db, .error .fileAlreadyExists)
  else
    let fileID := db.nextFileID
    let db1 : DB :=
      { db with files := db.files ++ [{ id := fileID, name := name }], nextFileID := fileID + 1 }
    if layerInsertFault then (db1, .error .storeFailure)
    else (insertActiveLayer db1 fileID, .ok fileID)

/-- Statement of the Checkpoint transaction at which an injected I/O
failure aborts (noFault for the fault-free run). -/
inductive CkptFault where
  | noFault
  | failVersionInsert
  | failLayerUpdate
  | failLayerInsert
  | failCommit
deriving DecidableEq, Repr

/-- UPDATE snapshot_layers SET active = 0, version_id = $1 WHERE id = $2
applied to one row. -/
def sealLayer (layerID versionID : Nat) (l : LayerRow) : LayerRow :=
  if l.id == layerID then { l with active := false, versionID := versionID } else l

/-- Checkpoint (lines 863-940): inside one transaction, resolve the file
(a missing file yields id 0 with no error), select its active layer
(erroring when none exists, as for id 0), insert the version row (failing
on a duplicate tag), seal the active layer with the new version id and
insert a fresh active layer, then commit.  Any error, including an
injected fault at a later statement, rolls the transaction back: the
returned state is the input state. -/
def Checkpoint (db : DB) (fault : CkptFault) (filename version : String) :
    DB × Except Err Unit :=
  let fileID := GetFileIDByName db filename
  match activeLayerID db fileID with
  | none => (db, .error .activeLayerQueryFailed)
  | some layerID =>
    if fault = .failVersionInsert then (db, .error .storeFailure)
    else if db.versions.any (fun v => v.tag == version) then (db, .error .duplicateVersionTag)
    else
      let versionID := db.nextVersionID
      let db1 : DB :=
        { db with versions := db.versions ++ [{ id := versionID, tag := version }],
                  nextVersionID := versionID + 1 }
      if fault = .failLayerUpdate then (db, .error .storeFailure)
      else
        let db2 : DB := { db1 with layers := db1.layers.map (sealLayer layerID versionID) }
        if fault = .failLayerInsert then (db, .error .storeFailure)
        else
          let db3 := insertActiveLayer db2 fileID
          if fault = .failCommit then (db, .error .storeFailure)
          else (db3, .ok ())

/-- Truncate (lines 983-1027): no-op at equal size, Unsupported when
shrinking, otherwise extend through a zero-filled WriteFile at the old
end (the Go wrapper around the propagated write error is cosmetic). -/
def Truncate (db : DB) (filename : String) (newSize : Nat) : DB × Except Err Unit :=
  if GetFileIDByName db filename = 0 then (db, .error .fileNotFound)
  else if newSize = calcFileSize db (GetFileIDByName db filename) then (db, .ok ())
  else if newSize < calcFileSize db (GetFileIDByName db filename) then
    (db, .error .truncateToSmaller)
  else
    WriteFile db filename
      (List.replicate (newSize - calcFileSize db (GetFileIDByName db filename)) 0)
      (calcFileSize db (GetFileIDByName db filename))

/-- Stable insertion into a list sorted by chunk offset: the new element
goes before the first strictly later position with an offset it does not
exceed, so equal offsets keep their relative order. -/
def insertChunkSorted (c : Chunk) : List Chunk → List Chunk
  | [] => [c]
  | d :: ds => if c.offset ≤ d.offset then c :: d :: ds else d :: insertChunkSorted c ds

/-- Stable sort of chunks by offset, modelling ORDER BY offset_value ASC
over rows held in insertion order (SQL leaves the tie order unspecified;
the heap returns insertion order, which the stable sort preserves). -/
def sortChunksByOffset : List Chunk → List Chunk
  | [] => []
  | c :: cs => insertChunkSorted c (sortChunksByOffset cs)

/-- loadChunksBySnapshotLayerID (lines 575-659) restricted to one layer:
SELECT ... FROM chunks ORDER BY snapshot_layer_id, offset_value ASC,
grouped by layer.  Per layer this is the stable by-offset sort of the
layer rows. -/
def chunksOf (chunks : List Chunk) (layerID : Nat) : List Chunk :=
  sortChunksByOffset (chunks.filter (fun c => c.layerID == layerID))

/-- Copy of one chunk payload into the read buffer (ReadFile lines
363-379), including the buffer-extension branch for a chunk that ends
beyond the current buffer. -/
def applyChunkToBuf (buf : List Nat) (c : Chunk) : List Nat :=
  if c.offset + c.data.length ≤ buf.length then
    buf.take c.offset ++ c.data ++ buf.drop (c.offset + c.data.length)
  else
    (buf ++ List.replicate (c.offset + c.data.length - buf.length) 0).take c.offset ++ c.data

/-- Maximum end offset (chunk offset plus payload length) over the chunks
of the selected layers (ReadFile lines 345-357). -/
def maxImageSize (chunks : List Chunk) (layerIDs : List Nat) : Nat :=
  layerIDs.foldl
    (fun acc lid => (chunksOf chunks lid).foldl (fun a c => Nat.max a (c.offset + c.data.length)) acc) 0

/-- The virtual image of the selected layers: a zero buffer of the maximum
size over which every selected chunk is copied in layer order, then
by-offset order within a layer (ReadFile lines 359-379). -/
def buildImage (chunks : List Chunk) (layerIDs : List Nat) : List Nat :=
  layerIDs.foldl
    (fun buf lid => (chunksOf chunks lid).foldl applyChunkToBuf buf)
    (List.replicate (maxImageSize chunks layerIDs) 0)

/-- Tag of a layer under the LEFT JOIN with versions (lines 749-753):
the tag of the version row whose id is the layer version_id, or the empty
string when there is none (version_id NULL, modelled as 0). -/
def layerTag (db : DB) (l : LayerRow) : String :=
  match db.versions.find? (fun v => v.id == l.versionID) with
  | some v => v.tag
  | none => ""

/-- Version filter of ReadFile (lines 322-329): append layers in order and
stop right after the first layer bearing the requested tag. -/
def takeThroughTag (db : DB) (version : String) : List LayerRow → List LayerRow
  | [] => []
  | l :: ls => if layerTag db l == version then [l] else l :: takeThroughTag db version ls

/-- Existence check of ReadFile (lines 298-309): EXISTS(SELECT 1 FROM
snapshot_layers INNER JOIN versions ON versions.id = version_id WHERE
file_id = $1 AND tag = $2). -/
def versionExistsForFile (db : DB) (fileID : Nat) (version : String) : Bool :=
  db.layers.any (fun l =>
    l.fileID == fileID && db.versions.any (fun v => v.id == l.versionID && v.tag == version))

/-- Layers selected by a read: all layers of the file, cut at the
requested version tag when one is given (the empty tag means no version,
as in Go where the option is a string and the empty string is absent). -/
def selectedLayers (db : DB) (fileID : Nat) (version : String) : List LayerRow :=
  if version ≠ "" then takeThroughTag db version (LoadLayersByFileID db fileID)
  else LoadLayersByFileID db fileID

/-- Ids of the selected layers, the only part of the rows the image
construction reads. -/
def selectedLayerIDs (db : DB) (fileID : Nat) (version : String) : List Nat :=
  (selectedLayers db fileID version).map (fun l => l.id)

/-- Final slice of ReadFile (lines 381-391): empty result (no error) when
the offset reaches the image end, otherwise the copy of
buf[offset : min(offset+size, len(buf))]. -/
def readResult (buf : List Nat) (offset size : Nat) : Except Err (List Nat) :=
  if buf.length ≤ offset then .ok []
  else .ok ((buf.take (Nat.min (offset + size) buf.length)).drop offset)

/-- ReadFile (lines 257-407).  layersLoadFault and chunksLoadFault inject
DB failures into LoadLayersByFileID and loadChunksBySnapshotLayerID; the
Go code turns either failure into an error only when a version tag was
requested and otherwise swallows it into an empty, error-free result.
The version-filter step between the two loads is pure, so checking the
chunk-load fault before it is observationally the Go order. -/
def ReadFile (db : DB) (layersLoadFault chunksLoadFault : Bool) (filename : String)
    (offset size : Nat) (version : String) : Except Err (List Nat) :=
  if GetFileIDByName db filename = 0 then .error .fileNotFound
  else if version ≠ "" ∧ versionExistsForFile db (GetFileIDByName db filename) version = false then
    .error .versionTagNotFound
  else if layersLoadFault then
    (if version ≠ "" then .error .loadLayersFailed else .ok [])
  else if chunksLoadFault then
    (if version ≠ "" then .error .loadChunksFailed else .ok [])
  else
    readResult
      (buildImage db.chunks (selectedLayerIDs db (GetFileIDByName db filename) version))
      offset size

/-- Image of a file restricted to a version, as ReadFile materializes it;
its length is the virtual end a read is sliced against. -/
def imageOf (db : DB) (fileID : Nat) (version : String) : List Nat :=
  buildImage db.chunks (selectedLayerIDs db fileID version)

/-- A deferred write request: file name, payload, offset. -/
abbrev WriteOp := String × List Nat × Nat

/-- Apply a sequence of WriteFile calls, keeping the state each call
returns (a rejected write leaves the state unchanged). -/
def applyWrites (db : DB) (ws : List WriteOp) : DB :=
  ws.foldl (fun d w => (WriteFile d w.1 w.2.1 w.2.2).1) db

/-- State with one file named f and its initial empty active layer. -/
def dbOneFile : DB := (InsertFile emptyDB false "f").1

/-- Run of the claim-one scenario: bytes 120 120 at offset 0, byte 122 at
offset 1, then payload A = 97 97 97 at offset 0, then payload B = 98 at
offset 0, all in the single active layer. -/
def dbC1 : DB :=
  (WriteFile (WriteFile (WriteFile (WriteFile dbOneFile "f" [120, 120] 0).1
    "f" [122] 1).1 "f" [97, 97, 97] 0).1 "f" [98] 0).1

/-- State with one file holding the two bytes 7 7. -/
def dbC5 : DB := (WriteFile dbOneFile "f" [7, 7] 0).1

/-- State whose second layer opens with a chunk at nonzero offset: write
two bytes at 0, checkpoint v1, then write one byte at offset 1 into the
fresh empty layer. -/
def dbC8 : DB :=
  (WriteFile (Checkpoint (WriteFile dbOneFile "f" [1, 1] 0).1 .noFault "f" "v1").1
    "f" [9] 1).1

/-- State with one file holding byte 5, before an empty-tag checkpoint. -/
def dbC3pre : DB := (WriteFile dbOneFile "f" [5] 0).1

/-- State after checkpointing dbC3pre under the empty tag and then
overwriting offset 0 with byte 7. -/
def dbC3post : DB := (WriteFile (Checkpoint dbC3pre .noFault "f" "").1 "f" [7] 0).1

/-! ## Helper lemmas -/

/-- Unfolding of a successful active-layer lookup: the returned id belongs
to an active layer row of the file. -/
theorem activeLayerID_some {db : DB} {fid lid : Nat}
    (h : activeLayerID db fid = some lid) :
    ∃ l ∈ db.layers, (l.fileID == fid && l.active) = true ∧ l.id = lid := by
  unfold activeLayerID at h
  cases hh : (db.layers.filter (fun l => l.fileID == fid && l.active)).head? with
  | none => rw [hh] at h; cases h
  | some l =>
    rw [hh] at h
    obtain ⟨ys, hys⟩ := List.head?_eq_some_iff.mp hh
    have hmem : l ∈ db.layers.filter (fun l => l.fileID == fid && l.active) := by
      rw [hys]; exact List.mem_cons_self _ _
    have hf := List.mem_filter.mp hmem
    refine ⟨l, hf.1, hf.2, ?_⟩
    simpa using h

/-- Inversion of a successful WriteFile: the guards passed and the state
gained exactly the one new chunk row. -/
theorem writeFile_ok {db db' : DB} {name : String} {data : List Nat} {k : Nat}
    (h : WriteFile db name data k = (db', .ok ())) :
    ∃ lid, GetFileIDByName db name ≠ 0 ∧
      activeLayerID db (GetFileIDByName db name) = some lid ∧
      k ≤ calcFileSize db (GetFileIDByName db name) ∧
      db' = { db with chunks := db.chunks ++
        [{ layerID := lid, offset := k, data := data,
           layerRange := (calculateRanges db lid k data.length).1,
           fileRange := (calculateRanges db lid k data.length).2 }] } := by
  unfold WriteFile at h
  split at h
  · injection h with h1 h2; cases h2
  next h0 =>
    split at h
    · injection h with h1 h2; cases h2
    next lid heq =>
      split at h
      · injection h with h1 h2; cases h2
      next hk =>
        injection h with h1 h2
        exact ⟨lid, h0, heq, Nat.not_lt.mp hk, h1.symm⟩

/-- Acceptance of a write whose offset does not exceed the current virtual
size of an existing file with an active layer. -/
theorem writeFile_accepted {db : DB} {name : String} (data : List Nat) {k lid : Nat}
    (hfid : GetFileIDByName db name ≠ 0)
    (hact : activeLayerID db (GetFileIDByName db name) = some lid)
    (hk : k ≤ calcFileSize db (GetFileIDByName db name)) :
    WriteFile db name data k =
      ({ db with chunks := db.chunks ++
        [{ layerID := lid, offset := k, data := data,
           layerRange := (calculateRanges db lid k data.length).1,
           fileRange := (calculateRanges db lid k data.length).2 }] }, .ok ()) := by
  unfold WriteFile
  rw [if_neg hfid, hact]
  exact if_neg (Nat.not_lt.mpr hk)

/-- Membership of the active layer id among the layer ids of its file. -/
theorem activeLayer_mem_layerIDs {db : DB} {fid lid : Nat}
    (h : activeLayerID db fid = some lid) :
    lid ∈ (db.layers.filter (fun l => l.fileID == fid)).map (fun l => l.id) := by
  obtain ⟨l, hl, hp, hid⟩ := activeLayerID_some h
  simp only [Bool.and_eq_true] at hp
  exact List.mem_map.mpr ⟨l, List.mem_filter.mpr ⟨hl, hp.1⟩, hid⟩

/-- Effect of a successful write on the virtual size: the maximum of the
old size and the end of the new chunk. -/
theorem calcFileSize_after_write {db db' : DB} {name : String} {data : List Nat} {k : Nat}
    (h : WriteFile db name data k = (db', .ok ())) :
    calcFileSize db' (GetFileIDByName db name) =
      Nat.max (calcFileSize db (GetFileIDByName db name)) (k + data.length) := by
  obtain ⟨lid, hfid, hact, hk, hdb⟩ := writeFile_ok h
  have hmem := activeLayer_mem_layerIDs hact
  subst hdb
  unfold calcFileSize
  simp only [List.filter_append, List.map_append, List.foldl_append]
  simp [calculateRanges, hmem]

/-- Rollback property of the Checkpoint transaction: every error return
carries the input state unchanged. -/
theorem checkpoint_error_state {db db' : DB} {fault : CkptFault} {n v : String} {e : Err}
    (h : Checkpoint db fault n v = (db', .error e)) : db' = db := by
  simp only [Checkpoint] at h
  cases hact : activeLayerID db (GetFileIDByName db n) with
  | none =>
    rw [hact] at h
    injection h with h1 h2
    exact h1.symm
  | some lid =>
    rw [hact] at h
    split_ifs at h
    all_goals first
      | (injection h with h1 h2; exact h1.symm)
      | (injection h with h1 h2; cases h2)

/-- Inversion of a successful Checkpoint: the guards passed and the state
gained the version row, the seal of the active layer and the fresh active
layer, all over the input state. -/
theorem checkpoint_ok_state {db db' : DB} {fault : CkptFault} {n v : String}
    (h : Checkpoint db fault n v = (db', .ok ())) :
    ∃ lid, activeLayerID db (GetFileIDByName db n) = some lid ∧
      (db.versions.any (fun x => x.tag == v)) = false ∧
      db' = insertActiveLayer
        { db with versions := db.versions ++ [{ id := db.nextVersionID, tag := v }],
                  nextVersionID := db.nextVersionID + 1,
                  layers := db.layers.map (sealLayer lid db.nextVersionID) }
        (GetFileIDByName db n) := by
  simp only [Checkpoint] at h
  cases hact : activeLayerID db (GetFileIDByName db n) with
  | none =>
    rw [hact] at h
    injection h with h1 h2
    cases h2
  | some lid =>
    rw [hact] at h
    split_ifs at h with h1 h2 h3 h4 h5
    any_goals (injection h with ha hb; cases hb)
    exact ⟨lid, rfl, by simpa using h2, ha.symm⟩

/-- A WriteFile call never touches the files, layers or versions tables
nor the id counters; it appends at most one chunk row, and that row
belongs to a layer that is active in the state the write ran against. -/
theorem writeFile_state (db : DB) (n : String) (d : List Nat) (k : Nat) :
    (WriteFile db n d k).1.files = db.files ∧
    (WriteFile db n d k).1.layers = db.layers ∧
    (WriteFile db n d k).1.versions = db.versions ∧
    ∃ tail, (WriteFile db n d k).1.chunks = db.chunks ++ tail ∧
      ∀ c ∈ tail, ∃ l ∈ db.layers, l.active = true ∧ c.layerID = l.id := by
  by_cases h0 : GetFileIDByName db n = 0
  · unfold WriteFile
    rw [if_pos h0]
    exact ⟨rfl, rfl, rfl, [], by simp, by simp⟩
  · cases hact : activeLayerID db (GetFileIDByName db n) with
    | none =>
      unfold WriteFile
      rw [if_neg h0, hact]
      exact ⟨rfl, rfl, rfl, [], by simp, by simp⟩
    | some lid =>
      by_cases hk : k > calcFileSize db (GetFileIDByName db n)
      · have hrej : WriteFile db n d k = (db, .error .writeBeyondFileSize) := by
          unfold WriteFile
          rw [if_neg h0, hact]
          exact if_pos hk
        rw [hrej]
        exact ⟨rfl, rfl, rfl, [], by simp, by simp⟩
      · rw [writeFile_accepted d h0 hact (Nat.not_lt.mp hk)]
        refine ⟨rfl, rfl, rfl,
          [{ layerID := lid, offset := k, data := d,
             layerRange := (calculateRanges db lid k d.length).1,
             fileRange := (calculateRanges db lid k d.length).2 }], rfl, ?_⟩
        intro c hc
        obtain ⟨l, hl, hp, hid⟩ := activeLayerID_some hact
        simp only [List.mem_singleton] at hc
        subst hc
        simp only [Bool.and_eq_true] at hp
        exact ⟨l, hl, hp.2, hid.symm⟩

/-- A sequence of writes preserves every table except chunks, to which it
appends rows that all belong to layers active in the starting state. -/
theorem applyWrites_state (ws : List WriteOp) (db : DB) :
    (applyWrites db ws).files = db.files ∧
    (applyWrites db ws).layers = db.layers ∧
    (applyWrites db ws).versions = db.versions ∧
    ∃ tail, (applyWrites db ws).chunks = db.chunks ++ tail ∧
      ∀ c ∈ tail, ∃ l ∈ db.layers, l.active = true ∧ c.layerID = l.id := by
  induction ws generalizing db with
  | nil => exact ⟨rfl, rfl, rfl, [], (List.append_nil _).symm, by simp⟩
  | cons w ws ih =>
    have hstep : applyWrites db (w :: ws) = applyWrites (WriteFile db w.1 w.2.1 w.2.2).1 ws := rfl
    rw [hstep]
    obtain ⟨hf, hl, hv, tail1, hc1, hm1⟩ := writeFile_state db w.1 w.2.1 w.2.2
    obtain ⟨ihf, ihl, ihv, tail2, ihc, ihm⟩ := ih (WriteFile db w.1 w.2.1 w.2.2).1
    refine ⟨ihf.trans hf, ihl.trans hl, ihv.trans hv, tail1 ++ tail2, ?_, ?_⟩
    · rw [ihc, hc1, List.append_assoc]
    · intro c hc
      rcases List.mem_append.mp hc with h | h
      · exact hm1 c h
      · obtain ⟨l, hl2, hact2, hid⟩ := ihm c h
        rw [hl] at hl2
        exact ⟨l, hl2, hact2, hid⟩

/-- The version filter keeps exactly the prefix that ends at the first
layer bearing the requested tag. -/
theorem takeThroughTag_prefix (db : DB) (ver : String) (front : List LayerRow)
    (l : LayerRow) (rest : List LayerRow)
    (hfront : ∀ x ∈ front, layerTag db x ≠ ver)
    (hl : layerTag db l = ver) :
    takeThroughTag db ver (front ++ l :: rest) = front ++ [l] := by
  induction front with
  | nil =>
    simp only [List.nil_append]
    unfold takeThroughTag
    rw [if_pos (by simp [hl])]
  | cons x xs ih =>
    have hx : layerTag db x ≠ ver := hfront x (List.mem_cons_self _ _)
    simp only [List.cons_append]
    unfold takeThroughTag
    rw [if_neg (by simp [hx])]
    rw [ih (fun y hy => hfront y (List.mem_cons_of_mem _ hy))]

/-- Folding over a list is determined by the step function on its
members. -/
theorem foldl_congr_mem {α β : Type} (l : List α) (g1 g2 : β → α → β) (b : β)
    (h : ∀ a ∈ l, ∀ x, g1 x a = g2 x a) : l.foldl g1 b = l.foldl g2 b := by
  induction l generalizing b with
  | nil => rfl
  | cons a as ih =>
    simp only [List.foldl_cons]
    rw [h a (List.mem_cons_self _ _)]
    exact ih _ (fun y hy x => h y (List.mem_cons_of_mem _ hy) x)

/-- The image construction reads the chunk table only through the chunk
rows of the selected layers. -/
theorem buildImage_congr (chunks1 chunks2 : List Chunk) (layerIDs : List Nat)
    (h : ∀ lid ∈ layerIDs,
      chunks1.filter (fun c => c.layerID == lid) =
        chunks2.filter (fun c => c.layerID == lid)) :
    buildImage chunks1 layerIDs = buildImage chunks2 layerIDs := by
  have hchunksOf : ∀ lid ∈ layerIDs, chunksOf chunks1 lid = chunksOf chunks2 lid := by
    intro lid hlid
    unfold chunksOf
    rw [h lid hlid]
  have hmax : maxImageSize chunks1 layerIDs = maxImageSize chunks2 layerIDs := by
    unfold maxImageSize
    exact foldl_congr_mem _ _ _ _ (fun a ha x => by rw [hchunksOf a ha])
  unfold buildImage
  rw [hmax]
  exact foldl_congr_mem _ _ _ _ (fun a ha x => by rw [hchunksOf a ha])

/-- Sealing keeps the id of every row. -/
theorem sealLayer_id (lid vid : Nat) (l : LayerRow) : (sealLayer lid vid l).id = l.id := by
  unfold sealLayer; split <;> rfl

/-- Sealing keeps the file id of every row. -/
theorem sealLayer_fileID (lid vid : Nat) (l : LayerRow) :
    (sealLayer lid vid l).fileID = l.fileID := by
  unfold sealLayer; split <;> rfl

/-- Sealing leaves rows with a different id untouched. -/
theorem sealLayer_of_ne {lid : Nat} (vid : Nat) {l : LayerRow} (h : l.id ≠ lid) :
    sealLayer lid vid l = l := by
  unfold sealLayer
  rw [if_neg (by simp [h])]

/-- Sealing the addressed row clears its active flag and sets its version
pointer. -/
theorem sealLayer_self {lid : Nat} (vid : Nat) {l : LayerRow} (h : l.id = lid) :
    sealLayer lid vid l = { l with active := false, versionID := vid } := by
  unfold sealLayer
  rw [if_pos (by simp [h])]

/-- Filtering by file id commutes with the seal map, which preserves the
file id of every row. -/
theorem filter_fileID_map_seal (layers : List LayerRow) (lid vid fid : Nat) :
    (layers.map (sealLayer lid vid)).filter (fun l => l.fileID == fid) =
      (layers.filter (fun l => l.fileID == fid)).map (sealLayer lid vid) := by
  induction layers with
  | nil => rfl
  | cons x xs ih =>
    simp only [List.map_cons, List.filter_cons, sealLayer_fileID]
    by_cases hx : (x.fileID == fid) = true
    · simp [hx, ih]
    · simp [Bool.of_not_eq_true hx, ih]

/-- Appending a version row with an id different from the version pointer
of a layer does not change the tag of that layer. -/
theorem layerTag_versions_append {db db2 : DB} {l : LayerRow} {vrow : VersionRow}
    (h2 : db2.versions = db.versions ++ [vrow]) (hne : l.versionID ≠ vrow.id) :
    layerTag db2 l = layerTag db l := by
  unfold layerTag
  rw [h2, List.find?_append]
  cases hf : db.versions.find? (fun v => v.id == l.versionID) with
  | some v => rfl
  | none =>
    have hb : (vrow.id == l.versionID) = false := by
      simp [Ne.symm hne]
    simp [List.find?_cons, hb]

/-- No layer bears a tag that no version row of the store carries. -/
theorem layerTag_ne_of_fresh {db : DB} (l : LayerRow) {T : String}
    (hfresh : (db.versions.any (fun x => x.tag == T)) = false) (hT : T ≠ "") :
    layerTag db l ≠ T := by
  unfold layerTag
  cases hf : db.versions.find? (fun v => v.id == l.versionID) with
  | none => exact fun h => hT h.symm
  | some v =>
    have hv := List.mem_of_find?_eq_some hf
    have hne := List.any_eq_false.mp hfresh v hv
    simpa using hne

/-- Resolving a file name reads only the files table. -/
theorem getFileIDByName_files_eq {db1 db2 : DB} (h : db1.files = db2.files) (n : String) :
    GetFileIDByName db1 n = GetFileIDByName db2 n := by
  unfold GetFileIDByName
  rw [h]

/-- The layer whose version pointer is the id of the newly appended
version row bears the tag of that row, provided no earlier version row
carries the same id. -/
theorem layerTag_new_version {db db2 : DB} {l : LayerRow} {vrow : VersionRow}
    (h2 : db2.versions = db.versions ++ [vrow])
    (hl : l.versionID = vrow.id)
    (hvne : ∀ v ∈ db.versions, v.id ≠ vrow.id) :
    layerTag db2 l = vrow.tag := by
  unfold layerTag
  rw [h2, List.find?_append]
  have hnone : db.versions.find? (fun v => v.id == l.versionID) = none := by
    rw [List.find?_eq_none]
    intro v hv
    simp only [beq_iff_eq, hl]
    exact hvne v hv
  have hone : ([vrow] : List VersionRow).find? (fun v => v.id == l.versionID) = some vrow := by
    simp [List.find?_cons, hl]
  rw [hnone, hone]
  rfl

/-! ## Claim theorems -/

/-- Claim C3, amended for nonempty tags: after a successful
Checkpoint(name, T) with T nonempty, any sequence of further WriteFile
calls (to this or other files) leaves ReadFile(name, offset, size,
WithVersion(T)) equal to the un-versioned read of the file just before
the checkpoint, that is, to the image produced by the writes performed
before Checkpoint.  The hypotheses are the store invariants of reachable
states: the file exists, its filtered layer list ends in its unique
active layer, ids are unique and below the SERIAL counters, and version
pointers are below the version counter. -/
theorem readFile_version_isolation (db : DB) (name T : String) (fid : Nat)
    (front : List LayerRow) (lrow : LayerRow)
    (hfid : GetFileIDByName db name = fid) (hfid0 : fid ≠ 0)
    (hlay : db.layers.filter (fun l => l.fileID == fid) = front ++ [lrow])
    (hlact : lrow.active = true)
    (hfrontin : ∀ l ∈ front, l.active = false)
    (hids : ∀ l ∈ db.layers, l.id < db.nextLayerID)
    (hinj : ∀ a ∈ db.layers, ∀ b ∈ db.layers, a.id = b.id → a = b)
    (hvids : ∀ v ∈ db.versions, v.id < db.nextVersionID)
    (hlvids : ∀ l ∈ db.layers, l.versionID < db.nextVersionID)
    (hT : T ≠ "")
    (hok : (Checkpoint db .noFault name T).2 = .ok ())
    (ws : List WriteOp) (off sz : Nat) :
    ReadFile (applyWrites (Checkpoint db .noFault name T).1 ws) false false name off sz T =
      ReadFile db false false name off sz "" := by
  have hckpt : Checkpoint db .noFault name T = ((Checkpoint db .noFault name T).1, .ok ()) := by
    rw [← hok]
  obtain ⟨lid0, hact0, hfresh, hdb1⟩ := checkpoint_ok_state hckpt
  rw [hfid] at hact0 hdb1
  have hlrow_mem_f : lrow ∈ db.layers.filter (fun l => l.fileID == fid) := by
    rw [hlay]; exact List.mem_append_right _ (List.mem_cons_self _ _)
  have hlrow_mem : lrow ∈ db.layers := (List.mem_filter.mp hlrow_mem_f).1
  have hlrow_fid : (lrow.fileID == fid) = true := (List.mem_filter.mp hlrow_mem_f).2
  have hfront_mem : ∀ x ∈ front, x ∈ db.layers := by
    intro x hx
    have hxf : x ∈ db.layers.filter (fun l => l.fileID == fid) := by
      rw [hlay]; exact List.mem_append_left _ hx
    exact (List.mem_filter.mp hxf).1
  have hactl : activeLayerID db fid = some lrow.id := by
    unfold activeLayerID
    have hsplit : db.layers.filter (fun l => l.fileID == fid && l.active) =
        (db.layers.filter (fun l => l.fileID == fid)).filter (fun l => l.active) := by
      rw [List.filter_filter]
      exact List.filter_congr (fun a _ => Bool.and_comm _ _)
    rw [hsplit, hlay, List.filter_append]
    have hfe : front.filter (fun l => l.active) = [] :=
      List.filter_eq_nil_iff.mpr (fun a ha => by simp [hfrontin a ha])
    rw [hfe]
    simp [hlact]
  have hlid0 : lid0 = lrow.id := by
    rw [hactl] at hact0
    exact (Option.some.inj hact0).symm
  subst hlid0
  have hDB1layers : (Checkpoint db .noFault name T).1.layers =
      db.layers.map (sealLayer lrow.id db.nextVersionID) ++
        [{ id := db.nextLayerID, fileID := fid, active := true, versionID := 0 }] := by
    rw [hdb1]; rfl
  have hDB1versions : (Checkpoint db .noFault name T).1.versions =
      db.versions ++ [{ id := db.nextVersionID, tag := T }] := by
    rw [hdb1]; rfl
  have hDB1chunks : (Checkpoint db .noFault name T).1.chunks = db.chunks := by
    rw [hdb1]; rfl
  have hDB1files : (Checkpoint db .noFault name T).1.files = db.files := by
    rw [hdb1]; rfl
  obtain ⟨hW_files, hW_layers, hW_versions, tail, hW_chunks, hW_tail⟩ :=
    applyWrites_state ws (Checkpoint db .noFault name T).1
  have hfid2 : GetFileIDByName (applyWrites (Checkpoint db .noFault name T).1 ws) name = fid :=
    (getFileIDByName_files_eq (hW_files.trans hDB1files) name).trans hfid
  have hsealed_eq : sealLayer lrow.id db.nextVersionID lrow =
      { lrow with active := false, versionID := db.nextVersionID } := sealLayer_self _ rfl
  have hDB2layers : (applyWrites (Checkpoint db .noFault name T).1 ws).layers =
      db.layers.map (sealLayer lrow.id db.nextVersionID) ++
        [{ id := db.nextLayerID, fileID := fid, active := true, versionID := 0 }] :=
    hW_layers.trans hDB1layers
  have hDB2versions : (applyWrites (Checkpoint db .noFault name T).1 ws).versions =
      db.versions ++ [{ id := db.nextVersionID, tag := T }] :=
    hW_versions.trans hDB1versions
  have hfront_seal : front.map (sealLayer lrow.id db.nextVersionID) = front := by
    have hpt : ∀ x ∈ front, sealLayer lrow.id db.nextVersionID x = id x := by
      intro x hx
      apply sealLayer_of_ne
      intro hxid
      have hxl := hinj x (hfront_mem x hx) lrow hlrow_mem hxid
      have hxa := hfrontin x hx
      rw [hxl, hlact] at hxa
      cases hxa
    rw [List.map_congr_left hpt, List.map_id]
  have hload : LoadLayersByFileID (applyWrites (Checkpoint db .noFault name T).1 ws) fid =
      front ++ { lrow with active := false, versionID := db.nextVersionID } ::
        [{ id := db.nextLayerID, fileID := fid, active := true, versionID := 0 }] := by
    unfold LoadLayersByFileID
    rw [hDB2layers, List.filter_append, filter_fileID_map_seal, hlay]
    have hNL : ([{ id := db.nextLayerID, fileID := fid, active := true, versionID := 0 }] :
        List LayerRow).filter (fun l => l.fileID == fid) =
        [{ id := db.nextLayerID, fileID := fid, active := true, versionID := 0 }] := by simp
    rw [hNL, List.map_append, hfront_seal]
    simp [hsealed_eq]
  have hfront_tags : ∀ x ∈ front,
      layerTag (applyWrites (Checkpoint db .noFault name T).1 ws) x ≠ T := by
    intro x hx
    have hxv : x.versionID ≠ db.nextVersionID := by
      have hb := hlvids x (hfront_mem x hx)
      omega
    have heq := layerTag_versions_append hDB2versions hxv
    rw [heq]
    exact layerTag_ne_of_fresh x hfresh hT
  have hsealed_tag : layerTag (applyWrites (Checkpoint db .noFault name T).1 ws)
      { lrow with active := false, versionID := db.nextVersionID } = T :=
    layerTag_new_version hDB2versions rfl
      (fun v hv => by show v.id ≠ db.nextVersionID; have hb := hvids v hv; omega)
  have hvex : versionExistsForFile (applyWrites (Checkpoint db .noFault name T).1 ws) fid T
      = true := by
    unfold versionExistsForFile
    rw [List.any_eq_true]
    refine ⟨{ lrow with active := false, versionID := db.nextVersionID }, ?_, ?_⟩
    · rw [hDB2layers]
      apply List.mem_append_left
      rw [← hsealed_eq]
      exact List.mem_map_of_mem _ hlrow_mem
    · rw [Bool.and_eq_true]
      refine ⟨hlrow_fid, ?_⟩
      rw [List.any_eq_true]
      refine ⟨{ id := db.nextVersionID, tag := T }, ?_, by simp⟩
      rw [hDB2versions]
      exact List.mem_append_right _ (List.mem_cons_self _ _)
  have hsel2 : selectedLayerIDs (applyWrites (Checkpoint db .noFault name T).1 ws) fid T =
      front.map (fun l => l.id) ++ [lrow.id] := by
    unfold selectedLayerIDs selectedLayers
    rw [if_pos hT, hload,
      takeThroughTag_prefix _ T front _ _ hfront_tags hsealed_tag, List.map_append]
    rfl
  have hsel1 : selectedLayerIDs db fid "" = front.map (fun l => l.id) ++ [lrow.id] := by
    unfold selectedLayerIDs selectedLayers
    rw [if_neg (by simp)]
    unfold LoadLayersByFileID
    rw [hlay, List.map_append]
    rfl
  have hchunk_eq : ∀ lid ∈ front.map (fun l => l.id) ++ [lrow.id],
      (applyWrites (Checkpoint db .noFault name T).1 ws).chunks.filter
          (fun c => c.layerID == lid) =
        db.chunks.filter (fun c => c.layerID == lid) := by
    intro lid hlid
    have hDB2chunks : (applyWrites (Checkpoint db .noFault name T).1 ws).chunks =
        db.chunks ++ tail := by
      rw [hW_chunks, hDB1chunks]
    have hy : ∃ y, y ∈ front ++ [lrow] ∧ y.id = lid := by
      rcases List.mem_append.mp hlid with h | h
      · obtain ⟨y, hy1, hy2⟩ := List.mem_map.mp h
        exact ⟨y, List.mem_append_left _ hy1, hy2⟩
      · simp only [List.mem_singleton] at h
        exact ⟨lrow, List.mem_append_right _ (List.mem_cons_self _ _), h.symm⟩
    obtain ⟨y, hymem, hyid⟩ := hy
    have hydb : y ∈ db.layers := by
      have hyf : y ∈ db.layers.filter (fun l => l.fileID == fid) := by
        rw [hlay]; exact hymem
      exact (List.mem_filter.mp hyf).1
    have htail : tail.filter (fun c => c.layerID == lid) = [] := by
      rw [List.filter_eq_nil_iff]
      intro c hc
      obtain ⟨l1, hl1mem, hl1act, hcid⟩ := hW_tail c hc
      rw [hDB1layers] at hl1mem
      intro hb
      simp only [beq_iff_eq] at hb
      rcases List.mem_append.mp hl1mem with h1 | h1
      · obtain ⟨z, hz, hzeq⟩ := List.mem_map.mp h1
        by_cases hzid : z.id = lrow.id
        · rw [← hzeq, sealLayer_self _ hzid] at hl1act
          cases hl1act
        · rw [sealLayer_of_ne _ hzid] at hzeq
          subst hzeq
          have hzy : z = y := hinj z hz y hydb (by rw [← hcid, hb, ← hyid])
          rcases List.mem_append.mp hymem with h2 | h2
          · have hya := hfrontin y h2
            rw [← hzy, hl1act] at hya
            cases hya
          · simp only [List.mem_singleton] at h2
            subst h2
            exact hzid (by rw [hzy])
      · simp only [List.mem_singleton] at h1
        subst h1
        have hylt := hids y hydb
        have hci : c.layerID = db.nextLayerID := hcid
        omega
    rw [hDB2chunks, List.filter_append, htail, List.append_nil]
  have hbuild : buildImage (applyWrites (Checkpoint db .noFault name T).1 ws).chunks
      (front.map (fun l => l.id) ++ [lrow.id]) =
      buildImage db.chunks (front.map (fun l => l.id) ++ [lrow.id]) :=
    buildImage_congr _ _ _ hchunk_eq
  have hL : ReadFile (applyWrites (Checkpoint db .noFault name T).1 ws) false false name off sz T =
      readResult (buildImage (applyWrites (Checkpoint db .noFault name T).1 ws).chunks
        (selectedLayerIDs (applyWrites (Checkpoint db .noFault name T).1 ws) fid T)) off sz := by
    unfold ReadFile
    rw [hfid2, if_neg hfid0,
      if_neg (by intro hc; rw [hvex] at hc; simp at hc)]
    rfl
  have hR : ReadFile db false false name off sz "" =
      readResult (buildImage db.chunks (selectedLayerIDs db fid "")) off sz := by
    unfold ReadFile
    rw [hfid, if_neg hfid0, if_neg (by simp)]
    rfl
  rw [hL, hR, hsel2, hsel1, hbuild]

/-- Witness for the amended claim C3: checkpoint v1 over the one-byte
file holding 5, overwrite with 9, and the versioned read still returns
the pre-checkpoint image. -/
theorem readFile_version_isolation_witness :
    ReadFile (applyWrites (Checkpoint dbC3pre .noFault "f" "v1").1 [("f", [9], 0)])
        false false "f" 0 1 "v1" =
      ReadFile dbC3pre false false "f" 0 1 "" :=
  readFile_version_isolation dbC3pre "f" "v1" 1 []
    { id := 1, fileID := 1, active := true, versionID := 0 } rfl (by decide) rfl rfl
    (by decide) (by decide) (by decide) (by decide) (by decide) (by decide) rfl
    [("f", [9], 0)] 0 1

/-- Counterexample to claim C3 as stated: the empty checkpoint tag is
accepted by Checkpoint, but ReadFile treats the empty version tag as no
version at all, so reading WithVersion of the empty tag after a later
overwrite returns the latest image 7 instead of the image 5 produced by
the writes before the checkpoint. -/
theorem readFile_version_isolation_empty_tag_cex :
    (Checkpoint dbC3pre .noFault "f" "").2 = .ok () ∧
    ReadFile dbC3pre false false "f" 0 1 "" = .ok [5] ∧
    ReadFile dbC3post false false "f" 0 1 "" = .ok [7] ∧
    ([7] : List Nat) ≠ [5] :=
  ⟨rfl, rfl, rfl, by decide⟩


/-- Claim C1, evaluation at the failing input.  In file f the single
active layer already holds chunks at offsets 0 and 1 when payload
A = 97 97 97 is written at offset 0 followed by payload B = 98 at offset
0.  The claim predicts ReadFile f 0 3 = B ++ A[1:] = 98 97 97, but the
read applies the chunks of a layer ordered by offset_value, so the chunk
at offset 1, although written before A and B, is applied after them and
masks byte 1: the result is 98 122 97. -/
theorem readFile_offset_order_divergence :
    ReadFile dbC1 false false "f" 0 3 "" = .ok [98, 122, 97] ∧
    ([98, 122, 97] : List Nat) ≠ [98] ++ List.drop 1 [97, 97, 97] :=
  ⟨rfl, by decide⟩

/-- Claim C2: on an existing file with an active layer, a write strictly
beyond the current virtual size fails with the beyond-size error and
records no chunk (the state is returned unchanged), while a write at
exactly the current size is accepted and extends the virtual size to
offset plus payload length. -/
theorem writeFile_beyond_size_rejected (db : DB) (name : String) (data : List Nat) (k lid : Nat)
    (hfid : GetFileIDByName db name ≠ 0)
    (hact : activeLayerID db (GetFileIDByName db name) = some lid) :
    (calcFileSize db (GetFileIDByName db name) < k →
      WriteFile db name data k = (db, .error .writeBeyondFileSize)) ∧
    (k = calcFileSize db (GetFileIDByName db name) →
      (WriteFile db name data k).2 = .ok () ∧
      calcFileSize (WriteFile db name data k).1 (GetFileIDByName db name) = k + data.length) := by
  constructor
  · intro hlt
    unfold WriteFile
    rw [if_neg hfid, hact]
    exact if_pos hlt
  · intro hk
    have hacc := writeFile_accepted data hfid hact (le_of_eq hk)
    have h2 := calcFileSize_after_write hacc
    refine ⟨by rw [hacc], ?_⟩
    have h3 : calcFileSize (WriteFile db name data k).1 (GetFileIDByName db name) =
        Nat.max (calcFileSize db (GetFileIDByName db name)) (k + data.length) := by
      rw [hacc]; exact h2
    rw [h3, ← hk]
    exact Nat.max_eq_right (Nat.le_add_right k data.length)

/-- Witness for claim C2 on a two-byte file: a write one byte past the
end is rejected with the state unchanged and a write exactly at the end
is accepted and extends the size to three. -/
theorem writeFile_beyond_size_rejected_witness :
    WriteFile dbC5 "f" [1] 3 = (dbC5, .error .writeBeyondFileSize) ∧
    (WriteFile dbC5 "f" [1] 2).2 = .ok () ∧
    calcFileSize (WriteFile dbC5 "f" [1] 2).1 (GetFileIDByName dbC5 "f") = 2 + 1 := by
  refine ⟨(writeFile_beyond_size_rejected dbC5 "f" [1] 3 1 (by decide) rfl).1 (by decide),
    ?_, ?_⟩
  · exact ((writeFile_beyond_size_rejected dbC5 "f" [1] 2 1 (by decide) rfl).2 (by decide)).1
  · exact ((writeFile_beyond_size_rejected dbC5 "f" [1] 2 1 (by decide) rfl).2 (by decide)).2

/-- Claim C4: Checkpoint is atomic: every failure, at whatever statement
of the transaction it strikes, returns the input state unchanged (no
version row, no active-flag change, no new layer), and a success carries
exactly the new version row, the seal of the formerly active layer with
the new version id, and one fresh empty active layer. -/
theorem checkpoint_atomic (db : DB) (fault : CkptFault) (name tag : String) :
    (∀ db' e, Checkpoint db fault name tag = (db', .error e) → db' = db) ∧
    (∀ db', Checkpoint db fault name tag = (db', .ok ()) →
      ∃ lid, activeLayerID db (GetFileIDByName db name) = some lid ∧
        db'.versions = db.versions ++ [{ id := db.nextVersionID, tag := tag }] ∧
        db'.layers = db.layers.map (sealLayer lid db.nextVersionID) ++
          [{ id := db.nextLayerID, fileID := GetFileIDByName db name, active := true,
             versionID := 0 }] ∧
        db'.files = db.files ∧ db'.chunks = db.chunks) := by
  constructor
  · intro db' e h
    exact checkpoint_error_state h
  · intro db' h
    obtain ⟨lid, hact, hfresh, hdb⟩ := checkpoint_ok_state h
    subst hdb
    exact ⟨lid, hact, by simp [insertActiveLayer], by simp [insertActiveLayer],
      by simp [insertActiveLayer], by simp [insertActiveLayer]⟩

/-- Witness for claim C4: a checkpoint of a missing file fails and the
returned state is the unchanged input state. -/
theorem checkpoint_atomic_witness :
    (Checkpoint emptyDB .failCommit "f" "v1").1 = emptyDB :=
  (checkpoint_atomic emptyDB .failCommit "f" "v1").1
    (Checkpoint emptyDB .failCommit "f" "v1").1 .activeLayerQueryFailed rfl

/-- Claim C6: after every accepted write the virtual size equals the
maximum of its previous value and offset plus payload length, so it never
decreases under WriteFile. -/
theorem fileSize_max_of_write (db db' : DB) (name : String) (data : List Nat) (k : Nat)
    (h : WriteFile db name data k = (db', .ok ())) :
    calcFileSize db' (GetFileIDByName db name) =
      Nat.max (calcFileSize db (GetFileIDByName db name)) (k + data.length) ∧
    calcFileSize db (GetFileIDByName db name) ≤ calcFileSize db' (GetFileIDByName db name) := by
  have h2 := calcFileSize_after_write h
  exact ⟨h2, by rw [h2]; exact Nat.le_max_left _ _⟩

/-- Witness for claim C6: writing two bytes at offset 0 into an empty
file takes the virtual size from 0 to max 0 2. -/
theorem fileSize_max_of_write_witness :
    calcFileSize dbC5 (GetFileIDByName dbOneFile "f") =
      Nat.max (calcFileSize dbOneFile (GetFileIDByName dbOneFile "f")) (0 + 2) ∧
    calcFileSize dbOneFile (GetFileIDByName dbOneFile "f") ≤
      calcFileSize dbC5 (GetFileIDByName dbOneFile "f") :=
  fileSize_max_of_write dbOneFile dbC5 "f" [7, 7] 0 rfl

/-- Claim C9: Truncate of an existing file with an active layer is a
no-op at the current size, fails with the unsupported error and an
unchanged state for a smaller size, and otherwise equals the zero-filled
WriteFile at the old end, which is accepted and extends the virtual size
to the requested one. -/
theorem truncate_cases (db : DB) (name : String) (newSize lid : Nat)
    (hfid : GetFileIDByName db name ≠ 0)
    (hact : activeLayerID db (GetFileIDByName db name) = some lid) :
    (newSize = calcFileSize db (GetFileIDByName db name) →
      Truncate db name newSize = (db, .ok ())) ∧
    (newSize < calcFileSize db (GetFileIDByName db name) →
      Truncate db name newSize = (db, .error .truncateToSmaller)) ∧
    (calcFileSize db (GetFileIDByName db name) < newSize →
      Truncate db name newSize =
        WriteFile db name
          (List.replicate (newSize - calcFileSize db (GetFileIDByName db name)) 0)
          (calcFileSize db (GetFileIDByName db name)) ∧
      (Truncate db name newSize).2 = .ok () ∧
      calcFileSize (Truncate db name newSize).1 (GetFileIDByName db name) = newSize) := by
  refine ⟨?_, ?_, ?_⟩
  · intro he
    unfold Truncate
    rw [if_neg hfid, if_pos he]
  · intro hlt
    unfold Truncate
    rw [if_neg hfid, if_neg (by omega), if_pos hlt]
  · intro hgt
    have heqT : Truncate db name newSize =
        WriteFile db name
          (List.replicate (newSize - calcFileSize db (GetFileIDByName db name)) 0)
          (calcFileSize db (GetFileIDByName db name)) := by
      unfold Truncate
      rw [if_neg hfid, if_neg (by omega), if_neg (by omega)]
    have hacc := writeFile_accepted
      (List.replicate (newSize - calcFileSize db (GetFileIDByName db name)) 0) hfid hact
      (le_refl _)
    have hsize := calcFileSize_after_write hacc
    refine ⟨heqT, ?_, ?_⟩
    · rw [heqT, hacc]
    · rw [heqT]
      have h3 : calcFileSize
          (WriteFile db name
            (List.replicate (newSize - calcFileSize db (GetFileIDByName db name)) 0)
            (calcFileSize db (GetFileIDByName db name))).1 (GetFileIDByName db name) =
          Nat.max (calcFileSize db (GetFileIDByName db name))
            (calcFileSize db (GetFileIDByName db name) +
              (List.replicate (newSize - calcFileSize db (GetFileIDByName db name))
                (0 : Nat)).length) := by
        rw [hacc]; exact hsize
      rw [h3]
      simp only [List.length_replicate]
      exact (Nat.max_eq_right (Nat.le_add_right _ _)).trans (by omega)

/-- Witness for claim C9 on a two-byte file: truncating to 1 fails
unchanged, truncating to 4 succeeds and the size becomes 4. -/
theorem truncate_cases_witness :
    Truncate dbC5 "f" 1 = (dbC5, .error .truncateToSmaller) ∧
    (Truncate dbC5 "f" 4).2 = .ok () ∧
    calcFileSize (Truncate dbC5 "f" 4).1 (GetFileIDByName dbC5 "f") = 4 := by
  refine ⟨(truncate_cases dbC5 "f" 1 1 (by decide) rfl).2.1 (by decide), ?_, ?_⟩
  · exact ((truncate_cases dbC5 "f" 4 1 (by decide) rfl).2.2 (by decide)).2.1
  · exact ((truncate_cases dbC5 "f" 4 1 (by decide) rfl).2.2 (by decide)).2.2

/-- Claim C10: a checkpoint of a name with no file row returns an error,
namely the failed active-layer lookup for the sentinel file id 0, not a
distinguished not-found, and the state is returned unchanged so nothing
is committed. -/
theorem checkpoint_nonexistent_file_errors (db : DB) (name tag : String)
    (hfid : GetFileIDByName db name = 0)
    (hl : ∀ l ∈ db.layers, l.fileID ≠ 0) :
    Checkpoint db .noFault name tag = (db, .error .activeLayerQueryFailed) := by
  have hnone : activeLayerID db 0 = none := by
    unfold activeLayerID
    have hfil : db.layers.filter (fun l => l.fileID == 0 && l.active) = [] := by
      rw [List.filter_eq_nil_iff]
      intro l hmem
      simp [hl l hmem]
    rw [hfil]
    rfl
  simp only [Checkpoint, hfid, hnone]

/-- Witness for claim C10: checkpointing any name on the empty store
fails with the active-layer lookup error and changes nothing. -/
theorem checkpoint_nonexistent_file_errors_witness :
    Checkpoint emptyDB .noFault "g" "v1" = (emptyDB, .error .activeLayerQueryFailed) :=
  checkpoint_nonexistent_file_errors emptyDB "g" "v1" rfl (by intro l hl; cases hl)

/-- Claim C7, amended: InsertFile runs two separate non-transactional
statements.  For a fresh name the fault-free run commits the file row and
the initial empty active layer; when the layer insert fails the call
errors but the already committed file row remains and no layer row was
added, so a file without an active layer is observable. -/
theorem insertFile_two_statements (db : DB) (name : String)
    (hfresh : db.files.any (fun f => f.name == name) = false) :
    ((InsertFile db false name).2 = .ok db.nextFileID ∧
     (InsertFile db false name).1.files = db.files ++ [{ id := db.nextFileID, name := name }] ∧
     (InsertFile db false name).1.layers = db.layers ++
       [{ id := db.nextLayerID, fileID := db.nextFileID, active := true, versionID := 0 }]) ∧
    ((InsertFile db true name).2 = .error .storeFailure ∧
     (InsertFile db true name).1.files = db.files ++ [{ id := db.nextFileID, name := name }] ∧
     (InsertFile db true name).1.layers = db.layers) := by
  simp [InsertFile, hfresh, insertActiveLayer]

/-- Witness for the amended claim C7 at the empty store. -/
theorem insertFile_two_statements_witness :
    ((InsertFile emptyDB false "g").2 = .ok emptyDB.nextFileID ∧
     (InsertFile emptyDB false "g").1.files =
       emptyDB.files ++ [{ id := emptyDB.nextFileID, name := "g" }] ∧
     (InsertFile emptyDB false "g").1.layers = emptyDB.layers ++
       [{ id := emptyDB.nextLayerID, fileID := emptyDB.nextFileID, active := true,
          versionID := 0 }]) ∧
    ((InsertFile emptyDB true "g").2 = .error .storeFailure ∧
     (InsertFile emptyDB true "g").1.files =
       emptyDB.files ++ [{ id := emptyDB.nextFileID, name := "g" }] ∧
     (InsertFile emptyDB true "g").1.layers = emptyDB.layers) :=
  insertFile_two_statements emptyDB "g" rfl

/-- Counterexample to claim C7 as stated: on the empty store with an
injected failure of the layer insert, InsertFile f errors yet the file
row is committed while no layer row exists, so a state with the file but
no active layer is observable and the two inserts are not atomic. -/
theorem insertFile_not_atomic_cex :
    (InsertFile emptyDB true "f").2 = .error .storeFailure ∧
    (InsertFile emptyDB true "f").1.files = [{ id := 1, name := "f" }] ∧
    (InsertFile emptyDB true "f").1.layers = [] :=
  ⟨rfl, rfl, rfl⟩

/-- Claim C8, amended: every accepted write records exactly one chunk
whose file range is offset to offset plus payload length and whose layer
range starts at offset minus the base of the active layer taken before
the insertion (natural subtraction, hence 0 for an empty layer and 0 when
the offset is below the base), and both ranges have payload length.  The
base in this relation is the insertion-time one, not the layer base
recomputed over the final set of chunks. -/
theorem writeFile_chunk_ranges (db db' : DB) (name : String) (data : List Nat) (k : Nat)
    (h : WriteFile db name data k = (db', .ok ())) :
    ∃ lid, activeLayerID db (GetFileIDByName db name) = some lid ∧
      db'.chunks = db.chunks ++
        [{ layerID := lid, offset := k, data := data,
           layerRange := (k - GetLayerBase db lid, (k - GetLayerBase db lid) + data.length),
           fileRange := (k, k + data.length) }] ∧
      (k + data.length) - k = data.length ∧
      ((k - GetLayerBase db lid) + data.length) - (k - GetLayerBase db lid) = data.length := by
  obtain ⟨lid, hfid, hact, hk, hdb⟩ := writeFile_ok h
  have hif : (if k ≥ GetLayerBase db lid then k - GetLayerBase db lid else 0) =
      k - GetLayerBase db lid := by
    split
    · rfl
    · omega
  refine ⟨lid, hact, ?_, by omega, by omega⟩
  subst hdb
  simp [calculateRanges, hif]

/-- Witness for the amended claim C8: the first write into the initial
empty layer of file f records the chunk at offset 0 with both ranges of
length two. -/
theorem writeFile_chunk_ranges_witness :
    ∃ lid, activeLayerID dbOneFile (GetFileIDByName dbOneFile "f") = some lid ∧
      dbC5.chunks = dbOneFile.chunks ++
        [{ layerID := lid, offset := 0, data := [7, 7],
           layerRange := (0 - GetLayerBase dbOneFile lid, (0 - GetLayerBase dbOneFile lid) + 2),
           fileRange := (0, 0 + 2) }] ∧
      (0 + 2) - 0 = 2 ∧
      ((0 - GetLayerBase dbOneFile lid) + 2) - (0 - GetLayerBase dbOneFile lid) = 2 :=
  writeFile_chunk_ranges dbOneFile dbC5 "f" [7, 7] 0 rfl

/-- Counterexample to claim C8 as stated: in dbC8 the chunk of layer 2
was inserted when that layer was empty, so its layer-range start is its
offset 1; the base of layer 2 recomputed after the insertion is 1, and
its file-range start minus that base is 0, not 1, so the invariant ls
equals fs minus base of the layer fails for this chunk. -/
theorem layer_base_relation_cex :
    dbC8.chunks.map (fun c => (c.layerID, c.layerRange.1, c.fileRange.1)) =
      [(1, 0, 0), (2, 1, 1)] ∧
    GetLayerBase dbC8 2 = 1 ∧
    (1 : Nat) ≠ 1 - 1 :=
  ⟨rfl, rfl, by decide⟩

/-- Unfolding of the natural minimum into its conditional form. -/
theorem nat_min_ite (a b : Nat) : Nat.min a b = if a ≤ b then a else b := rfl

/-- Characterization of the final read slice: it is the empty list with
no error exactly when the offset reaches the buffer end or the requested
size is 0. -/
theorem readResult_ok_nil_iff (buf : List Nat) (off sz : Nat) :
    readResult buf off sz = .ok [] ↔ (buf.length ≤ off ∨ sz = 0) := by
  unfold readResult
  by_cases h : buf.length ≤ off
  · simp [h]
  · rw [if_neg h]
    constructor
    · intro he
      have hl := Except.ok.inj he
      have hlen := congrArg List.length hl
      simp only [List.length_drop, List.length_take, List.length_nil] at hlen
      have hlen2 : Nat.min (Nat.min (off + sz) buf.length) buf.length - off = 0 := hlen
      simp only [nat_min_ite] at hlen2
      split_ifs at hlen2 <;> omega
    · rintro (h1 | h1)
      · omega
      · subst h1
        have hnil : (buf.take (Nat.min (off + 0) buf.length)).drop off = [] := by
          rw [List.drop_eq_nil_iff, List.length_take]
          show Nat.min (Nat.min (off + 0) buf.length) buf.length ≤ off
          simp only [nat_min_ite]
          split_ifs <;> omega
        rw [hnil]

/-- Claim C5, amended: for an existing file and a valid or absent version
tag, fault-free ReadFile returns the empty result with no error exactly
when the offset is at or beyond the end of the selected image or the
requested size is 0; a failing layer or chunk load is an error when a
version tag was given but is swallowed into an empty, error-free result
when none was. -/
theorem readFile_empty_result (db : DB) (name : String) (off sz : Nat) (ver : String)
    (hfid : GetFileIDByName db name ≠ 0)
    (hver : ver = "" ∨ versionExistsForFile db (GetFileIDByName db name) ver = true) :
    (ReadFile db false false name off sz ver = .ok [] ↔
      ((imageOf db (GetFileIDByName db name) ver).length ≤ off ∨ sz = 0)) ∧
    (ver = "" →
      ReadFile db true false name off sz ver = .ok [] ∧
      ReadFile db false true name off sz ver = .ok []) ∧
    (ver ≠ "" →
      ReadFile db true false name off sz ver = .error .loadLayersFailed ∧
      ReadFile db false true name off sz ver = .error .loadChunksFailed) := by
  have hcond : ¬(ver ≠ "" ∧ versionExistsForFile db (GetFileIDByName db name) ver = false) := by
    rcases hver with h | h
    · intro hc; exact hc.1 h
    · intro hc; rw [h] at hc; cases hc.2
  refine ⟨?_, ?_, ?_⟩
  · unfold ReadFile
    rw [if_neg hfid, if_neg hcond]
    exact readResult_ok_nil_iff _ off sz
  · intro hv
    subst hv
    unfold ReadFile
    simp [hfid]
  · intro hv
    have hex : versionExistsForFile db (GetFileIDByName db name) ver = true := by
      rcases hver with h | h
      · exact absurd h hv
      · exact h
    unfold ReadFile
    simp [hfid, hv, hex]

/-- Witness for the amended claim C5 on a two-byte file, read without a
version tag past the end. -/
theorem readFile_empty_result_witness :
    (ReadFile dbC5 false false "f" 5 1 "" = .ok [] ↔
      ((imageOf dbC5 (GetFileIDByName dbC5 "f") "").length ≤ 5 ∨ (1 : Nat) = 0)) ∧
    ((("" : String) = "") →
      ReadFile dbC5 true false "f" 5 1 "" = .ok [] ∧
      ReadFile dbC5 false true "f" 5 1 "" = .ok []) ∧
    ((("" : String) ≠ "") →
      ReadFile dbC5 true false "f" 5 1 "" = .error .loadLayersFailed ∧
      ReadFile dbC5 false true "f" 5 1 "" = .error .loadChunksFailed) :=
  readFile_empty_result dbC5 "f" 5 1 "" (by decide) (Or.inl rfl)

/-- Counterexample to claim C5 as stated: on a two-byte file a size-0
read at offset 0 returns the empty result with no error although the
offset is strictly below the virtual end, and with a failing layer load
and no version tag ReadFile also returns the empty result with no error
instead of an error. -/
theorem readFile_empty_result_cex :
    ReadFile dbC5 false false "f" 0 0 "" = .ok [] ∧
    (imageOf dbC5 (GetFileIDByName dbC5 "f") "").length = 2 ∧
    ReadFile dbC5 true false "f" 0 2 "" = .ok [] :=
  ⟨rfl, rfl, rfl⟩

end QuackFS
